import Mathlib

/-!
Verification of the PrimeNG v17→v18 migration tooling (Angular schematic,
`src/primeng-18-migrate/src/primeng-18-migrate/`).

The migration rules are JavaScript `String.prototype.replace` calls with
global regexes over file contents.  We embed file contents as `List Char`
and each regex as a deterministic matcher `Option Char → Txt → Option
(Txt × Nat)`: given the character preceding the current position (for
word boundaries) and the remaining text, it returns the replacement text
and the number of characters consumed when the regex matches here.  A
generic scanner `scanAll` folds such a matcher over the text exactly the
way a JS global replace does (left to right, non-overlapping,
continuing after each match), and `scanTest` mirrors `RegExp.test`.

The regexes used by the migration are deterministic (character classes
that exclude their closing delimiter, so greedy/lazy repetition both
reduce to "up to the first delimiter"), except where noted; each matcher
documents the regex it embeds.
-/

set_option maxRecDepth 100000

namespace PrimeNG18

/-- File contents, as the JS string the migration manipulates. -/
abbrev Txt := List Char

/-- The characters of a Lean string literal. -/
def chars (s : String) : Txt := s.data

/-- JS regex `\w`: ASCII letters, digits and underscore. -/
def isWordChar (c : Char) : Bool := c.isAlphanum || c == '_'

/-- JS regex `\s` (restricted to the whitespace the sources contain:
space, tab, carriage return, newline). -/
def isSpaceChar (c : Char) : Bool := c == ' ' || c == '\t' || c == '\r' || c == '\n'

/-- A single quote or double quote, the JS regex class `['"]`. -/
def isQuote (c : Char) : Bool := c == '\'' || c == '"'

/-- Does `pat` occur at the very start of `s`? -/
def headMatch : Txt → Txt → Bool
  | [], _ => true
  | _ :: _, [] => false
  | p :: ps, c :: cs => p == c && headMatch ps cs

/-- Does `pat` occur anywhere in `s`?  (JS `String.prototype.includes`.) -/
def containsSub : Txt → Txt → Bool
  | pat, [] => headMatch pat []
  | pat, c :: cs => headMatch pat (c :: cs) || containsSub pat cs

/-- JS `path.endsWith(suffix)`, computed on the paths' characters. -/
def pathEndsWith (p suffix : String) : Bool :=
  headMatch (chars suffix) ((chars p).drop ((chars p).length - (chars suffix).length))

/-- A matcher: given the previous character (`none` at the start of the
text) and the remaining text, return the replacement and the number of
characters the match consumes, or `none` when the regex does not match
at this position. -/
abbrev Finder := Option Char → Txt → Option (Txt × Nat)

/-- One pass of a JS global replace: scan left to right; at a match,
emit the replacement, skip the consumed characters and continue after
them (the "previous character" then being the last consumed one, as JS
word boundaries look at the original text).  `fuel` starts at the text
length; every step consumes at least one character. -/
def scanAux (find : Finder) : Option Char → Nat → Txt → Txt
  | _, 0, s => s
  | _, _ + 1, [] => []
  | prev, fuel + 1, c :: cs =>
    match find prev (c :: cs) with
    | some (rep, used) =>
      let t := max used 1
      rep ++ scanAux find ((c :: cs).take t).getLast? fuel ((c :: cs).drop t)
    | none => c :: scanAux find (some c) fuel cs

/-- JS `s.replace(re, …)` with `re` global, `re` embedded as `find`. -/
def scanAll (find : Finder) (s : Txt) : Txt := scanAux find none s.length s

/-- Does the regex embedded as `find` match anywhere in the text? -/
def testAux (find : Finder) : Option Char → Txt → Bool
  | _, [] => false
  | prev, c :: cs => (find prev (c :: cs)).isSome || testAux find (some c) cs

/-- JS `re.test(s)` (the sources reset `lastIndex` after each test). -/
def scanTest (find : Finder) (s : Txt) : Bool := testAux find none s

/-- A literal pattern (a regex with no metacharacters): replace `pat` by
`rep`. -/
def litFind (pat rep : Txt) : Finder := fun _ s =>
  if !pat.isEmpty && headMatch pat s then some (rep, pat.length) else none

/-- A `\bpat\b` pattern whose `pat` starts and ends with word
characters (true of every such pattern in the sources): it matches when
`pat` occurs here, the previous character is absent or a non-word
character, and the character after the occurrence is absent or a
non-word character. -/
def wbFind (pat rep : Txt) : Finder := fun prev s =>
  if headMatch pat s
      && (match prev with | none => true | some p => !isWordChar p)
      && (match s.drop pat.length with | [] => true | d :: _ => !isWordChar d)
  then some (rep, pat.length) else none

/-- A pattern `lead['"]name['"]` (a literal, then one quote character,
then a literal, then one quote character — the two quotes independent,
as in the sources' character classes), replaced by the fixed `rep`.
Embeds e.g. `/from ['"]primeng\/calendar['"]/g` and
`/selector: ['"]p-calendar['"]/g`. -/
def leadQuotedFind (lead name rep : Txt) : Finder := fun _ s =>
  if headMatch lead s then
    match s.drop lead.length with
    | q1 :: t1 =>
      if isQuote q1 && headMatch name t1 then
        match t1.drop name.length with
        | q2 :: _ =>
          if isQuote q2 then some (rep, lead.length + name.length + 2) else none
        | [] => none
      else none
    | [] => none
  else none

/-! ## The chain rules of `index.ts` (`migrateToV18`), per-file content logic

Each schematic rule visits the tree, reads a file, applies guarded
replacements and overwrites the file when its `hasChanged` flag is set.
`RuleAcc` is the pair (current `fileContent`, `hasChanged`). -/

structure RuleAcc where
  content : Txt
  changed : Bool
deriving DecidableEq

/-- `if (re.test(fileContent)) { fileContent = fileContent.replace(…); hasChanged = true; }` -/
def applyGuarded (test : Txt → Bool) (rep : Txt → Txt) (acc : RuleAcc) : RuleAcc :=
  if test acc.content then ⟨rep acc.content, true⟩ else acc

/-- The variant of `updateCssClasses`/`updateDirectives`: the content is
replaced inside the test branch, but `hasChanged` is set only when the
replacement differs (`if (beforeReplace !== fileContent)`). -/
def applyGuardedNeq (test : Txt → Bool) (rep : Txt → Txt) (acc : RuleAcc) : RuleAcc :=
  if test acc.content then
    let c := rep acc.content
    ⟨c, acc.changed || c != acc.content⟩
  else acc

/-- The opening-tag regex of `updateComponentSelectors` (`index.ts:215`):
`<SEL(\s[^>]*)?\/?>`, replaced by `<NEW${attributes || ''}>`.  The
optional group greedily takes one whitespace character and then every
character up to the next `>` (this includes any `/`, so a spaced
self-closing tag keeps its slash inside the attributes); without the
group, an optional `/` and the `>` follow directly. -/
def openingTagFind (sel newSel : Txt) : Finder := fun _ s =>
  match s with
  | '<' :: s1 =>
    if headMatch sel s1 then
      match s1.drop sel.length with
      | c :: s2 =>
        if isSpaceChar c then
          let attrs := c :: s2.takeWhile (fun d => d != '>')
          match s2.dropWhile (fun d => d != '>') with
          | _ :: _ => some ('<' :: newSel ++ attrs ++ ['>'], 1 + sel.length + attrs.length + 1)
          | [] => none
        else if c == '/' then
          match s2 with
          | d :: _ => if d == '>' then some ('<' :: newSel ++ ['>'], 1 + sel.length + 2) else none
          | [] => none
        else if c == '>' then some ('<' :: newSel ++ ['>'], 1 + sel.length + 1)
        else none
      | [] => none
    else none
  | _ => none

/-- The closing tag `</SEL>` as text. -/
def closingTag (sel : Txt) : Txt := chars "</" ++ sel ++ chars ">"

/-- `selectorMappings` of `updateComponentSelectors` (`index.ts:195`). -/
def selectorMappings : List (Txt × Txt) :=
  [ (chars "p-calendar", chars "p-datepicker"),
    (chars "p-dropdown", chars "p-select"),
    (chars "p-inputSwitch", chars "p-toggleSwitch"),
    (chars "p-overlayPanel", chars "p-popover"),
    (chars "p-sidebar", chars "p-drawer") ]

/-- One mapping of `updateComponentSelectors`: when either the opening-tag
or the closing-tag regex matches, both replacements run and `hasChanged`
is set. -/
def selEntry (acc : RuleAcc) (m : Txt × Txt) : RuleAcc :=
  applyGuarded
    (fun c => scanTest (openingTagFind m.1 m.2) c
      || scanTest (litFind (closingTag m.1) (closingTag m.2)) c)
    (fun c => scanAll (litFind (closingTag m.1) (closingTag m.2))
      (scanAll (openingTagFind m.1 m.2) c))
    acc

/-- `updateComponentSelectors` (`index.ts:191`) on one file's content. -/
def updateComponentSelectorsFile (c : Txt) : RuleAcc :=
  selectorMappings.foldl selEntry ⟨c, false⟩

/-- `cssClassMappings` of `updateCssClasses` (`index.ts:252`). -/
def cssClassMappings : List (Txt × Txt) :=
  [ (chars "p-component", chars "p-element"),
    (chars "p-inputtext", chars "p-input"),
    (chars "p-link", chars ""),
    (chars "p-highlight", chars "p-highlighted"),
    (chars "p-fluid", chars "fluid") ]

/-- One `\bOLD\b → NEW` mapping, with the changed-only-if-different
check shared by `updateCssClasses` and `updateDirectives`. -/
def cssEntry (acc : RuleAcc) (m : Txt × Txt) : RuleAcc :=
  applyGuardedNeq (scanTest (wbFind m.1 m.2)) (scanAll (wbFind m.1 m.2)) acc

/-- `updateCssClasses` (`index.ts:248`) on one file's content. -/
def updateCssClassesFile (c : Txt) : RuleAcc :=
  cssClassMappings.foldl cssEntry ⟨c, false⟩

/-- `directiveMappings` of `updateDirectives` (`index.ts:471`). -/
def directiveMappings : List (Txt × Txt) :=
  [ (chars "pAnimate", chars "pAnimateOnScroll"),
    (chars "pDefer", chars "") ]

/-- `updateDirectives` (`index.ts:467`) on one file's content (same
guarded word-boundary structure as the CSS-class rule). -/
def updateDirectivesFile (c : Txt) : RuleAcc :=
  directiveMappings.foldl cssEntry ⟨c, false⟩

/-- The binding regex of `updateComponentProperties` (`index.ts:320`):
`\[NAME\]="[^"]*"`, replaced by `[NAME]="VAL"`. -/
def bindingFixedFind (name val : Txt) : Finder := fun _ s =>
  let pat := '[' :: name ++ chars "]=\""
  if headMatch pat s then
    let t := s.drop pat.length
    let v := t.takeWhile (fun d => d != '"')
    match t.dropWhile (fun d => d != '"') with
    | _ :: _ => some ('[' :: name ++ chars "]=\"" ++ val ++ ['"'], pat.length + v.length + 1)
    | [] => none
  else none

/-- The attribute regex of `updateComponentProperties` (`index.ts:321`):
`NAME="[^"]*"`, replaced by `NAME="VAL"`. -/
def attrFixedFind (name val : Txt) : Finder := fun _ s =>
  let pat := name ++ chars "=\""
  if headMatch pat s then
    let t := s.drop pat.length
    let v := t.takeWhile (fun d => d != '"')
    match t.dropWhile (fun d => d != '"') with
    | _ :: _ => some (name ++ chars "=\"" ++ val ++ ['"'], pat.length + v.length + 1)
    | [] => none
  else none

/-- `propertyMappings` of `updateComponentProperties` (`index.ts:305`). -/
def propertyMappings : List (Txt × Txt) :=
  [ (chars "showTransitionOptions", chars ".12s"),
    (chars "hideTransitionOptions", chars ".12s") ]

/-- One mapping of `updateComponentProperties`: binding form first, then
attribute form, each guarded by its own test. -/
def propEntry (acc : RuleAcc) (m : Txt × Txt) : RuleAcc :=
  applyGuarded (scanTest (attrFixedFind m.1 m.2)) (scanAll (attrFixedFind m.1 m.2))
    (applyGuarded (scanTest (bindingFixedFind m.1 m.2)) (scanAll (bindingFixedFind m.1 m.2)) acc)

/-- `updateComponentProperties` (`index.ts:301`) on one file's content. -/
def updateComponentPropertiesFile (c : Txt) : RuleAcc :=
  propertyMappings.foldl propEntry ⟨c, false⟩

/-- The binding regex of `updateDialogComponent` (`index.ts:366`):
`\[modal\]="([^"]*)"`, replaced by `[closeOnEscape]="$1"`. -/
def modalBindingFind : Finder := fun _ s =>
  let pat := chars "[modal]=\""
  if headMatch pat s then
    let t := s.drop pat.length
    let v := t.takeWhile (fun d => d != '"')
    match t.dropWhile (fun d => d != '"') with
    | _ :: _ => some (chars "[closeOnEscape]=\"" ++ v ++ ['"'], pat.length + v.length + 1)
    | [] => none
  else none

/-- The attribute regex of `updateDialogComponent` (`index.ts:377`):
`\bmodal="([^"]*)"`, replaced by `closeOnEscape="$1"` (`modal` starts
with a word character, so the boundary is a check on the previous
character only). -/
def modalAttrFind : Finder := fun prev s =>
  let pat := chars "modal=\""
  if headMatch pat s && (match prev with | none => true | some p => !isWordChar p) then
    let t := s.drop pat.length
    let v := t.takeWhile (fun d => d != '"')
    match t.dropWhile (fun d => d != '"') with
    | _ :: _ => some (chars "closeOnEscape=\"" ++ v ++ ['"'], pat.length + v.length + 1)
    | [] => none
  else none

/-- The object-property regex of `updateDialogComponent`
(`index.ts:391`): `(\bmodal\s*:\s*)(true|false)`, replaced by
`closeOnEscape: $2` (the captured spacing is discarded). -/
def modalPropFind : Finder := fun prev s =>
  if headMatch (chars "modal") s && (match prev with | none => true | some p => !isWordChar p) then
    let t := s.drop 5
    let w1 := t.takeWhile isSpaceChar
    match t.dropWhile isSpaceChar with
    | ':' :: t2 =>
      let w2 := t2.takeWhile isSpaceChar
      let t3 := t2.dropWhile isSpaceChar
      if headMatch (chars "true") t3 then
        some (chars "closeOnEscape: true", 5 + w1.length + 1 + w2.length + 4)
      else if headMatch (chars "false") t3 then
        some (chars "closeOnEscape: false", 5 + w1.length + 1 + w2.length + 5)
      else none
    | _ => none
  else none

/-- `updateDialogComponent` (`index.ts:350`) on one file: the two
template forms run on `.html` files, the object-property form on `.ts`
files. -/
def updateDialogComponentFile (path : String) (c : Txt) : RuleAcc :=
  let a0 : RuleAcc := ⟨c, false⟩
  let a1 :=
    if pathEndsWith path ".html" then
      applyGuarded (scanTest modalAttrFind) (scanAll modalAttrFind)
        (applyGuarded (scanTest modalBindingFind) (scanAll modalBindingFind) a0)
    else a0
  if pathEndsWith path ".ts" then
    applyGuarded (scanTest modalPropFind) (scanAll modalPropFind) a1
  else a1

/-! ## Module imports (`updateModuleImports`, `index.ts:121`) -/

/-- The import-statement regex
`import\s+{([^}]*)}\s+from\s+['"]PATH['"]`: `import`, whitespace, a
brace, the clause (greedy over non-brace characters, hence everything up
to the first closing brace), the closing brace, whitespace, `from`,
whitespace, and the quoted path (each quote independently single or
double).  The clause capture is passed to `mk`, which builds the
replacement (or refuses the match, for the variant whose clause must
contain `Message`). -/
def importStmtFind (path : Txt) (mk : Txt → Option Txt) : Finder := fun _ s =>
  if headMatch (chars "import") s then
    let t1 := s.drop 6
    let w1 := t1.takeWhile isSpaceChar
    if w1.isEmpty then none else
    match t1.dropWhile isSpaceChar with
    | '{' :: t2 =>
      let clause := t2.takeWhile (fun d => d != '}')
      match t2.dropWhile (fun d => d != '}') with
      | _ :: t3 =>
        let w2 := t3.takeWhile isSpaceChar
        if w2.isEmpty then none else
        let t4 := t3.dropWhile isSpaceChar
        if headMatch (chars "from") t4 then
          let t5 := t4.drop 4
          let w3 := t5.takeWhile isSpaceChar
          if w3.isEmpty then none else
          match t5.dropWhile isSpaceChar with
          | q1 :: t6 =>
            if isQuote q1 && headMatch path t6 then
              match t6.drop path.length with
              | q2 :: _ =>
                if isQuote q2 then
                  (mk clause).map (fun rep =>
                    (rep, 6 + w1.length + 1 + clause.length + 1 + w2.length
                      + 4 + w3.length + 1 + path.length + 1))
                else none
              | [] => none
            else none
          | [] => none
        else none
      | [] => none
    | _ => none
  else none

/-- The replacement `import {$1} from 'PATH'` (single quotes, as in the
sources' template strings). -/
def mkImportRepl (clause path : Txt) : Txt :=
  chars "import \x7b" ++ clause ++ chars "\x7d from '" ++ path ++ chars "'"

/-- The path-rename regex of the `moduleUpdates` loop (`index.ts:143`). -/
def importPathFind (old new : Txt) : Finder :=
  importStmtFind old (fun cl => some (mkImportRepl cl new))

/-- `moduleUpdates` of `updateModuleImports` (`index.ts:125`). -/
def moduleUpdates : List (Txt × Txt) :=
  [ (chars "primeng/calendar", chars "primeng/datepicker"),
    (chars "primeng/dropdown", chars "primeng/select"),
    (chars "primeng/inputswitch", chars "primeng/toggleswitch"),
    (chars "primeng/overlaypanel", chars "primeng/popover"),
    (chars "primeng/sidebar", chars "primeng/drawer") ]

/-- The negative lookahead `(?!\s*=|\s*\.|:)`: blocked when the next
characters are optional whitespace then `=`, optional whitespace then
`.`, or an immediate `:`. -/
def messageLookaheadBlocks (s : Txt) : Bool :=
  (match s with | c :: _ => c == ':' | [] => false)
  || (match s.dropWhile isSpaceChar with
      | c :: _ => c == '=' || c == '.'
      | [] => false)

/-- `\bMessage\b(?!\s*=|\s*\.|:)` → `ToastMessageOptions`
(`index.ts:168`). -/
def messageRefFind : Finder := fun prev s =>
  if headMatch (chars "Message") s
      && (match prev with | none => true | some p => !isWordChar p)
      && (match s.drop 7 with | [] => true | d :: _ => !isWordChar d)
      && !messageLookaheadBlocks (s.drop 7)
  then some (chars "ToastMessageOptions", 7) else none

/-- A word-bounded occurrence of `pat` at the start of `s`, `prev` the
character before it (`none` at a clause edge, which sits against a brace
and is therefore a boundary). -/
def wbAt (pat : Txt) (prev : Option Char) (s : Txt) : Bool :=
  headMatch pat s
    && (match prev with | none => true | some p => !isWordChar p)
    && (match s.drop pat.length with | [] => true | d :: _ => !isWordChar d)

/-- Split an import clause at its last word-bounded `Message`: the
greedy first group of `([^}]*)\bMessage\b([^}]*)` takes the longest
prefix, i.e. the match uses the last such occurrence. -/
def splitLastMessage : Option Char → Txt → Option (Txt × Txt)
  | _, [] => none
  | prev, c :: cs =>
    match splitLastMessage (some c) cs with
    | some (b, a) => some (c :: b, a)
    | none =>
      if wbAt (chars "Message") prev (c :: cs) then some ([], (c :: cs).drop 7)
      else none

/-- The Message-import regex (`index.ts:158`):
`import\s+{([^}]*)\bMessage\b([^}]*)}\s+from\s+['"]primeng\/api['"]`,
replacement `import {$1ToastMessageOptions$2} from 'primeng/api'`. -/
def messageImportFind : Finder :=
  importStmtFind (chars "primeng/api") (fun clause =>
    (splitLastMessage none clause).map (fun p =>
      chars "import \x7b" ++ p.1 ++ chars "ToastMessageOptions" ++ p.2
        ++ chars "\x7d from 'primeng/api'"))

/-- The log lines `updateModuleImports` emits for one file (the file
path is attached by the tree walk). -/
inductive MIEvent where
  | updatedImport (oldPath newPath : Txt)
  | updatedMessage
  | warnPrimeNGConfig
deriving DecidableEq

/-- The per-file state of `updateModuleImports`: content, `hasChanged`,
and the emitted log lines. -/
structure MIResult where
  content : Txt
  changed : Bool
  events : List MIEvent
deriving DecidableEq

/-- One entry of the `moduleUpdates` loop: on a test hit, replace, set
`hasChanged` and log. -/
def miPathEntry (acc : MIResult) (m : Txt × Txt) : MIResult :=
  if scanTest (importPathFind m.1 m.2) acc.content then
    ⟨scanAll (importPathFind m.1 m.2) acc.content, true,
      acc.events ++ [.updatedImport m.1 m.2]⟩
  else acc

/-- `updateModuleImports` (`index.ts:121`) on one file's content: the
five path renames, then — when the file mentions `primeng/api`, has a
word-bounded `Message` and an import of `Message` from `primeng/api` —
the import rewrite followed by the global `Message` reference rewrite,
then the `PrimeNGConfig` warning. -/
def updateModuleImportsFile (c : Txt) : MIResult :=
  let a1 := moduleUpdates.foldl miPathEntry ⟨c, false, []⟩
  let a2 :=
    if containsSub (chars "primeng/api") a1.content
        && scanTest (wbFind (chars "Message") []) a1.content then
      if scanTest messageImportFind a1.content then
        ⟨scanAll messageRefFind (scanAll messageImportFind a1.content), true,
          a1.events ++ [.updatedMessage]⟩
      else a1
    else a1
  if containsSub (chars "PrimeNGConfig") a2.content then
    { a2 with events := a2.events ++ [.warnPrimeNGConfig] }
  else a2

/-- `updateModuleImports` as a guarded content step (events dropped),
for the rule chain. -/
def updateModuleImportsAcc (c : Txt) : RuleAcc :=
  ⟨(updateModuleImportsFile c).content, (updateModuleImportsFile c).changed⟩

/-! ## The calendar→datepicker migration
(`migrations/calendar-datepicker/index.ts`), per matched file -/

/-- `updateModuleImports` of the calendar migration
(`calendar-datepicker/index.ts:149-161`) on one matched file's content:
a literal global `CalendarModule → DatePickerModule`, then
`from ['"]primeng\/calendar['"] → from 'primeng/datepicker'`, then
the import-statement rewrite (a no-op after the previous step, kept
for faithfulness). -/
def calendarModuleImportsContent (c : Txt) : Txt :=
  scanAll (importPathFind (chars "primeng/calendar") (chars "primeng/datepicker"))
    (scanAll (leadQuotedFind (chars "from ") (chars "primeng/calendar")
        (chars "from 'primeng/datepicker'"))
      (scanAll (litFind (chars "CalendarModule") (chars "DatePickerModule")) c))

/-- `updateComponentSelectors` of the calendar migration
(`calendar-datepicker/index.ts:186-190`) on one matched file's content:
literal `<p-calendar → <p-datepicker`, literal
`</p-calendar> → </p-datepicker>`, then
`selector: ['"]p-calendar['"] → selector: 'p-datepicker'`. -/
def calendarSelectorsContent (c : Txt) : Txt :=
  scanAll (leadQuotedFind (chars "selector: ") (chars "p-calendar")
      (chars "selector: 'p-datepicker'"))
    (scanAll (litFind (chars "</p-calendar>") (chars "</p-datepicker>"))
      (scanAll (litFind (chars "<p-calendar") (chars "<p-datepicker")) c))

/-! ## The chips→autoComplete migration
(`migrations/chips-autocomplete/index.ts`), per matched file -/

/-- Step 4 of the chips selector rewrite
(`chips-autocomplete/index.ts:163`): `(<p-autoComplete[^>]*?)>` replaced
by `$1 [multiple]="true">`.  The lazy class excludes `>`, so the group
is everything up to the first `>`. -/
def autoCompleteMultipleFind : Finder := fun _ s =>
  let head := chars "<p-autoComplete"
  if headMatch head s then
    let t := s.drop head.length
    let mid := t.takeWhile (fun d => d != '>')
    match t.dropWhile (fun d => d != '>') with
    | _ :: _ => some (head ++ mid ++ chars " [multiple]=\"true\">",
        head.length + mid.length + 1)
    | [] => none
  else none

/-- Step 5 (`chips-autocomplete/index.ts:166`):
`(<p-autoComplete[^>]*?>)` replaced by `$1<!-- Note: … -->`. -/
def autoCompleteCommentFind : Finder := fun _ s =>
  let head := chars "<p-autoComplete"
  if headMatch head s then
    let t := s.drop head.length
    let mid := t.takeWhile (fun d => d != '>')
    match t.dropWhile (fun d => d != '>') with
    | _ :: _ => some (head ++ mid ++ chars ">" ++ chars "<!-- Note: This component was migrated from Chips to AutoComplete. Please review the properties and behavior. -->",
        head.length + mid.length + 1)
    | [] => none
  else none

/-- No newline occurs strictly before the first `>` of `s` (and a `>`
exists): the condition under which the lazy `(.*?)>` tail of the
props-comment regex can close from the current position. -/
def noNlUntilGt : Txt → Bool
  | [] => false
  | c :: cs => if c == '>' then true else if c == '\n' then false else noNlUntilGt cs

/-- The backtracking split of `(<p-autoComplete[^>]*?)([\s\n]*)(.*?)>`
after the literal head: the lazy first group grows a character at a
time; for each size the second group takes the maximal whitespace run,
and the dot-group (which cannot cross a newline) must reach the first
`>`.  Shrinking the whitespace group never helps (it only adds
characters in front of the same first `>`), so the split is: extend the
first group until, past the whitespace run, no newline stands before
the first `>`.  Returns (group-1 tail, group 2, group 3, text after the
`>`). -/
def chipsPropsSplit : Txt → Option (Txt × Txt × Txt × Txt)
  | [] => none
  | c :: cs =>
    let t := (c :: cs).dropWhile isSpaceChar
    if noNlUntilGt t then
      some ([], (c :: cs).takeWhile isSpaceChar, t.takeWhile (fun d => d != '>'),
        (t.dropWhile (fun d => d != '>')).drop 1)
    else if c == '>' then none
    else (chipsPropsSplit cs).map (fun r => (c :: r.1, r.2.1, r.2.2.1, r.2.2.2))

/-- The replacement callback of the props-comment rewrite
(`chips-autocomplete/index.ts:172-196`): checks the captured props for
known properties in order and appends the matching note (rewriting
`(onAdd)=`/`(onRemove)=` events), or returns the whole match
unchanged. -/
def chipsPropsRepl (start w props : Txt) : Txt :=
  if containsSub (chars "field=") props || containsSub (chars "[field]=") props then
    start ++ w ++ props ++ chars "<!-- Note: 'field' property in Chips maps to 'field' in AutoComplete, but behavior may differ. -->" ++ w ++ chars ">"
  else if containsSub (chars "placeholder=") props || containsSub (chars "[placeholder]=") props then
    start ++ w ++ props ++ chars "<!-- Note: 'placeholder' property works the same in AutoComplete. -->" ++ w ++ chars ">"
  else if containsSub (chars "disabled=") props || containsSub (chars "[disabled]=") props then
    start ++ w ++ props ++ chars "<!-- Note: 'disabled' property works the same in AutoComplete. -->" ++ w ++ chars ">"
  else if containsSub (chars "style=") props || containsSub (chars "[style]=") props then
    start ++ w ++ props ++ chars "<!-- Note: 'style' property works the same in AutoComplete. -->" ++ w ++ chars ">"
  else if containsSub (chars "styleClass=") props || containsSub (chars "[styleClass]=") props then
    start ++ w ++ props ++ chars "<!-- Note: 'styleClass' property works the same in AutoComplete. -->" ++ w ++ chars ">"
  else if containsSub (chars "(onAdd)=") props then
    start ++ w ++ scanAll (litFind (chars "(onAdd)=") (chars "(onSelect)=")) props
      ++ chars "<!-- Note: 'onAdd' event in Chips maps to 'onSelect' in AutoComplete. -->" ++ w ++ chars ">"
  else if containsSub (chars "(onRemove)=") props then
    start ++ w ++ scanAll (litFind (chars "(onRemove)=") (chars "(onUnselect)=")) props
      ++ chars "<!-- Note: 'onRemove' event in Chips maps to 'onUnselect' in AutoComplete. -->" ++ w ++ chars ">"
  else start ++ w ++ props ++ chars ">"

/-- Step 6 of the chips selector rewrite: the props-comment regex with
its replacement callback. -/
def chipsPropsFind : Finder := fun _ s =>
  let head := chars "<p-autoComplete"
  if headMatch head s then
    match chipsPropsSplit (s.drop head.length) with
    | some (e, w, props, _) =>
      some (chipsPropsRepl (head ++ e) w props,
        head.length + e.length + w.length + props.length + 1)
    | none => none
  else none

/-- `updateComponentSelectors` of the chips migration
(`chips-autocomplete/index.ts:154-196`) on one matched file's content:
the three selector renames, then the `[multiple]="true"` insertion, the
migration comment, and the props comment. -/
def chipsSelectorsContent (c : Txt) : Txt :=
  scanAll chipsPropsFind
    (scanAll autoCompleteCommentFind
      (scanAll autoCompleteMultipleFind
        (scanAll (leadQuotedFind (chars "selector: ") (chars "p-chips")
            (chars "selector: 'p-autoComplete'"))
          (scanAll (litFind (chars "</p-chips>") (chars "</p-autoComplete>"))
            (scanAll (litFind (chars "<p-chips") (chars "<p-autoComplete")) c)))))

/-! ## The file tree

A schematic `Tree`'s text files, as (path, content) pairs in visit
order; `none` stands for a file whose `tree.read` returns `null`
(unreadable). -/

/-- One file of the tree: path and readable content, if any. -/
abbrev MFile := String × Option Txt

/-- `analyzeFilesForMigration` (`utils/file-utils.ts:9`): visit every
file; keep the paths ending in `.ts`, `.html`, `.scss` or `.css` whose
content is readable and satisfies the predicate. -/
def hasMigrationExt (p : String) : Bool :=
  pathEndsWith p ".ts" || pathEndsWith p ".html" || pathEndsWith p ".scss" || pathEndsWith p ".css"

/-- `analyzeFilesForMigration` (`utils/file-utils.ts:9-33`). -/
def analyzeFilesForMigration (files : List MFile)
    (pred : String → Txt → Bool) : List String :=
  match files with
  | [] => []
  | (p, c?) :: rest =>
    (if hasMigrationExt p then
      match c? with
      | some c => if pred p c then [p] else []
      | none => []
     else []) ++ analyzeFilesForMigration rest pred

/-- One chain rule's tree walk (`tree.visit` with an extension guard,
`tree.read`, the guarded content step, `tree.overwrite` when
`hasChanged`): returns the new file list and the paths overwritten.  An
unreadable file is skipped. -/
def runFileRule (applies : String → Bool) (step : String → Txt → RuleAcc) :
    List MFile → List MFile × List String
  | [] => ([], [])
  | (p, c?) :: rest =>
    let r := runFileRule applies step rest
    match c? with
    | some c =>
      if applies p then
        let a := step p c
        if a.changed then ((p, some a.content) :: r.1, p :: r.2)
        else ((p, some c) :: r.1, r.2)
      else ((p, some c) :: r.1, r.2)
    | none => ((p, none) :: r.1, r.2)

/-- The log of a tree walk of `updateModuleImports` (`index.ts:133`):
the events of each visited readable `.ts` file, tagged with its path.
No event is ever emitted for an unreadable file. -/
def miRunLog : List MFile → List (String × MIEvent)
  | [] => []
  | (p, c?) :: rest =>
    (match c? with
     | some c =>
       if pathEndsWith p ".ts" then (updateModuleImportsFile c).events.map (fun e => (p, e))
       else []
     | none => []) ++ miRunLog rest

/-! ## package.json and angular.json

`package.json` is manipulated as a parsed JSON object; we model the
parts the code touches — the four dependency sections, each a
name→version object — and keep the remaining top-level entries opaque.
JS object update keeps an existing key in place and appends a new one. -/

/-- Lookup in a JS-object association list (first occurrence). -/
def lookupA {α : Type} : List (String × α) → String → Option α
  | [], _ => none
  | (k, v) :: rest, key => if k = key then some v else lookupA rest key

/-- JS-object key update: overwrite the first occurrence in place, or
append the key. -/
def setA {α : Type} : List (String × α) → String → α → List (String × α)
  | [], key, v => [(key, v)]
  | (k, w) :: rest, key, v =>
    if k = key then (key, v) :: rest else (k, w) :: setA rest key v

/-- The parsed `package.json`: dependency sections (by their key, e.g.
`"dependencies"`) and the other top-level entries, opaque. -/
structure PackageJson where
  sections : List (String × List (String × String))
  rest : List (String × String)
deriving DecidableEq

/-- `NodeDependencyType` (`utils/prompt-utils.ts:46`, also
`index.ts:75`). -/
inductive NodeDependencyType where
  | Default | Dev | Peer | Optional
deriving DecidableEq

/-- The enum's string value, i.e. the `package.json` key. -/
def NodeDependencyType.key : NodeDependencyType → String
  | .Default => "dependencies"
  | .Dev => "devDependencies"
  | .Peer => "peerDependencies"
  | .Optional => "optionalDependencies"

/-- `PackageDependency` (`utils/prompt-utils.ts:56`). -/
structure PackageDependency where
  type : NodeDependencyType
  name : String
  version : String
  overwrite : Bool
deriving DecidableEq

/-- JS truthiness of `packageJson[type][name]`: the entry is present
and its value is a non-empty string. -/
def truthy : Option String → Bool
  | some v => v ≠ ""
  | none => false

/-- The dependency version recorded for `name` under section `ty`. -/
def depLookup (pj : PackageJson) (ty n : String) : Option String :=
  match lookupA pj.sections ty with
  | some sec => lookupA sec n
  | none => none

/-- `addPackageJsonDependency` (`utils/prompt-utils.ts:68-94`): create
the section if absent (`if (!packageJson[type])`), return without
touching the tree when the entry is truthy and `overwrite` is false,
otherwise set the one entry and write the file back. -/
def addPackageJsonDependency (pj : PackageJson) (d : PackageDependency) : PackageJson :=
  let sec := (lookupA pj.sections d.type.key).getD []
  if truthy (lookupA sec d.name) && !d.overwrite then pj
  else { pj with sections := setA pj.sections d.type.key (setA sec d.name d.version) }

/-- The other `addPackageJsonDependency` (`index.ts:57-72`), used by
`updateDependencies`: no existence or overwrite check — the entry is
set unconditionally (the caller handles the missing-file case). -/
def addPackageJsonDependencyIndex (pj : PackageJson) (d : PackageDependency) : PackageJson :=
  let sec := (lookupA pj.sections d.type.key).getD []
  { pj with sections := setA pj.sections d.type.key (setA sec d.name d.version) }

/-- The workspace a run of `migrateToV18` sees: the text files, the
parsed `/package.json` if it exists, and — for `/angular.json` — the
`styles` arrays of the workspace's projects, the only part
`updateAngularConfig` touches. -/
structure Workspace where
  files : List MFile
  packageJson : Option PackageJson
  angular : Option (List (List Txt))
deriving DecidableEq

/-- `updateDependencies` (`index.ts:83-118`): with no `/package.json`
both steps do nothing; otherwise set `primeng` to `^18.0.0`
unconditionally, then, when a truthy `dependencies.primeflex` entry
exists, set it to `^4.0.0`.  Returns the changed paths. -/
def updateDependenciesWs (ws : Workspace) : Workspace × List String :=
  match ws.packageJson with
  | none => (ws, [])
  | some pj =>
    let pj1 := addPackageJsonDependencyIndex pj ⟨.Default, "primeng", "^18.0.0", true⟩
    let pj2 :=
      match lookupA pj1.sections "dependencies" with
      | some sec =>
        match lookupA sec "primeflex" with
        | some v =>
          if v ≠ "" then
            { pj1 with sections := setA pj1.sections "dependencies" (setA sec "primeflex" "^4.0.0") }
          else pj1
        | none => pj1
      | none => pj1
    ({ ws with packageJson := some pj2 }, ["/package.json"])

/-- The style filter of `updateAngularConfig` (`index.ts:436-447`): a
style entry is dropped when it mentions `primeng/resources` (the
`node_modules/…` disjunct of the source is subsumed but kept). -/
def isPrimengStyle (style : Txt) : Bool :=
  containsSub (chars "primeng/resources") style
    || containsSub (chars "node_modules/primeng/resources") style

/-- `updateAngularConfig` (`index.ts:412-464`): with no `/angular.json`
do nothing; otherwise drop the deprecated style entries of every
project and write back only when something was dropped. -/
def updateAngularConfigWs (ws : Workspace) : Workspace × List String :=
  match ws.angular with
  | none => (ws, [])
  | some projects =>
    let newProjects := projects.map (fun styles => styles.filter (fun st => !isPrimengStyle st))
    if newProjects ≠ projects then
      ({ ws with angular := some newProjects }, ["/angular.json"])
    else (ws, [])

/-- The eight-rule chain of `migrateToV18` (`index.ts:538-547`), in
source order, collecting the overwritten paths. -/
def chainRun (ws : Workspace) : Workspace × List String :=
  let r1 := updateDependenciesWs ws
  let r2 := runFileRule (fun p => pathEndsWith p ".ts")
    (fun _ c => updateModuleImportsAcc c) r1.1.files
  let ws2 := { r1.1 with files := r2.1 }
  let r3 := runFileRule (fun p => pathEndsWith p ".html" || pathEndsWith p ".ts")
    (fun _ c => updateComponentSelectorsFile c) ws2.files
  let ws3 := { ws2 with files := r3.1 }
  let r4 := runFileRule
    (fun p => pathEndsWith p ".html" || pathEndsWith p ".scss" || pathEndsWith p ".css" || pathEndsWith p ".ts")
    (fun _ c => updateCssClassesFile c) ws3.files
  let ws4 := { ws3 with files := r4.1 }
  let r5 := runFileRule (fun p => pathEndsWith p ".html")
    (fun _ c => updateComponentPropertiesFile c) ws4.files
  let ws5 := { ws4 with files := r5.1 }
  let r6 := runFileRule (fun p => pathEndsWith p ".html" || pathEndsWith p ".ts")
    updateDialogComponentFile ws5.files
  let ws6 := { ws5 with files := r6.1 }
  let r7 := updateAngularConfigWs ws6
  let r8 := runFileRule (fun p => pathEndsWith p ".html")
    (fun _ c => updateDirectivesFile c) r7.1.files
  let ws8 := { r7.1 with files := r8.1 }
  (ws8, r1.2 ++ r2.2 ++ r3.2 ++ r4.2 ++ r5.2 ++ r6.2 ++ r7.2 ++ r8.2)

/-- `MigrationOptions` (`index.ts:12`). -/
structure MigrationOptions where
  skipGitCheck : Bool
  skipCommit : Bool
deriving DecidableEq

/-- Modelled from the spec: the external version-control collaborator
(the `execSync('git …')` calls are outside the repository).  `dirty` is
whether the worktree has uncommitted changes at the start
(`hasUnstagedChanges`), `stashOk` whether `git stash` succeeds.  Per
the spec's error taxonomy a commit of a clean worktree exits non-zero
and creates no commit, so a commit is performed exactly when it is
attempted and the worktree is dirty at that point. -/
structure GitState where
  dirty : Bool
  stashOk : Bool
deriving DecidableEq

/-- The outcome of `migrateToV18`: the final workspace, the overwritten
paths, whether `commitChanges` was invoked, and whether the external
tool actually created a commit. -/
structure MigrationRun where
  ws : Workspace
  changedPaths : List String
  commitAttempted : Bool
  commitPerformed : Bool
deriving DecidableEq

/-- `migrateToV18` (`index.ts:518-571`): the git check/stash, the rule
chain, and the unconditional `commitChanges` call unless `skipCommit`
(`index.ts:556`); the commit's effect follows the modelled collaborator
(`GitState`). -/
def migrateToV18 (opts : MigrationOptions) (git : GitState) (ws : Workspace) : MigrationRun :=
  if !opts.skipGitCheck && git.dirty && !git.stashOk then
    ⟨ws, [], false, false⟩
  else
    let residual := opts.skipGitCheck && git.dirty
    let r := chainRun ws
    let attempted := !opts.skipCommit
    ⟨r.1, r.2, attempted, attempted && (residual || decide (r.1 ≠ ws))⟩

/-- No rule of the `migrateToV18` chain matches this file: for each of
the six per-file rules, either the rule's extension guard excludes the
path, or the rule's tests all fail on the content (`hasChanged` stays
false).  Unreadable files are skipped by every rule. -/
def chainFileNoMatch : MFile → Bool
  | (_, none) => true
  | (p, some c) =>
    (!pathEndsWith p ".ts" || !(updateModuleImportsAcc c).changed)
    && (!(pathEndsWith p ".html" || pathEndsWith p ".ts") || !(updateComponentSelectorsFile c).changed)
    && (!(pathEndsWith p ".html" || pathEndsWith p ".scss" || pathEndsWith p ".css" || pathEndsWith p ".ts")
        || !(updateCssClassesFile c).changed)
    && (!pathEndsWith p ".html" || !(updateComponentPropertiesFile c).changed)
    && (!(pathEndsWith p ".html" || pathEndsWith p ".ts") || !(updateDialogComponentFile p c).changed)
    && (!pathEndsWith p ".html" || !(updateDirectivesFile c).changed)

/-- A tree with one unreadable `.ts` file followed by one readable
`.ts` file that matches the calendar module-import rename. -/
def unreadableTree : List MFile :=
  [ ("/src/app/broken.ts", none),
    ("/src/app/app.module.ts",
      some (chars "import \x7b CalendarModule \x7d from 'primeng/calendar';")) ]

/-! ## Helper lemmas -/

/-- A rule walk over files none of which it matches returns the file
list unchanged and overwrites nothing. -/
theorem runFileRule_of_no_match (applies : String → Bool)
    (step : String → Txt → RuleAcc) (files : List MFile)
    (h : ∀ f ∈ files, (match f with
      | (_, none) => true
      | (p, some c) => !applies p || !(step p c).changed) = true) :
    runFileRule applies step files = (files, []) := by
  induction files with
  | nil => rfl
  | cons f rest ih =>
    have hf := h f (List.mem_cons_self f rest)
    have hrest : runFileRule applies step rest = (rest, []) :=
      ih (fun g hg => h g (List.mem_cons_of_mem f hg))
    obtain ⟨p, c?⟩ := f
    cases c? with
    | none => simp [runFileRule, hrest]
    | some c =>
      simp only [runFileRule, hrest]
      rcases Bool.or_eq_true_iff.mp hf with hap | hch
      · simp [Bool.not_eq_true', Bool.not_eq_true] at hap
        simp [hap]
      · simp [Bool.not_eq_true', Bool.not_eq_true] at hch
        by_cases hap : applies p <;> simp [hap, hch]

/-- Updating a key makes it the looked-up value. -/
theorem lookupA_setA_self {α : Type} (l : List (String × α)) (k : String) (v : α) :
    lookupA (setA l k v) k = some v := by
  induction l with
  | nil => simp [setA, lookupA]
  | cons e rest ih =>
    obtain ⟨k', w⟩ := e
    by_cases h : k' = k <;> simp [setA, lookupA, h, ih]

/-- Updating a key leaves every other key's looked-up value alone. -/
theorem lookupA_setA_other {α : Type} (l : List (String × α)) (k k' : String) (v : α)
    (h : k' ≠ k) : lookupA (setA l k v) k' = lookupA l k' := by
  induction l with
  | nil => simp [setA, lookupA, Ne.symm h]
  | cons e rest ih =>
    obtain ⟨k0, w⟩ := e
    by_cases h0 : k0 = k
    · subst h0
      simp [setA, lookupA, Ne.symm h]
    · by_cases h1 : k0 = k' <;> simp [setA, lookupA, h0, h1, h, ih]

/-- `depLookup` through the defaulted section the code works on. -/
theorem depLookup_getD (pj : PackageJson) (ty n : String) :
    depLookup pj ty n = lookupA ((lookupA pj.sections ty).getD []) n := by
  unfold depLookup
  cases lookupA pj.sections ty <;> simp [lookupA]

/-! ## Claim theorems -/

/-- C1 (counterexample): the calendar module-import rule does not
replace every occurrence of the import path `primeng/calendar` — a
side-effect import `import 'primeng/calendar';` has no `from` clause,
so its path survives the rule. -/
theorem calendar_import_path_survives_side_effect_import :
    containsSub (chars "primeng/calendar")
      (calendarModuleImportsContent
        (chars "import \x7b CalendarModule \x7d from 'primeng/calendar';\nimport 'primeng/calendar';"))
      = true := by decide

/-- C1 (amended): the calendar module-import rule rewrites
`import { CalendarModule } from 'primeng/calendar';` to
`import { DatePickerModule } from 'primeng/datepicker';`; every
occurrence of `CalendarModule` is replaced, while the import path is
replaced only where it stands in a `from '…'` clause — a side-effect
style import keeps its path. -/
theorem calendar_module_import_scenario :
    calendarModuleImportsContent
        (chars "import \x7b CalendarModule \x7d from 'primeng/calendar';")
      = chars "import \x7b DatePickerModule \x7d from 'primeng/datepicker';"
  ∧ calendarModuleImportsContent
        (chars "import \x7b CalendarModule \x7d from 'primeng/calendar';\nimport 'primeng/calendar';")
      = chars "import \x7b DatePickerModule \x7d from 'primeng/datepicker';\nimport 'primeng/calendar';" := by
  decide

/-- C2: applying the CSS-class rule of `updateCssClasses` to a
stylesheet containing `.p-fluid { width: 100%; }` leaves no occurrence
of the token `p-fluid`: the selector becomes `.fluid` and the file is
marked changed. -/
theorem css_fluid_token_removed :
    (updateCssClassesFile (chars ".p-fluid \x7b width: 100%; \x7d")).content
      = chars ".fluid \x7b width: 100%; \x7d"
  ∧ containsSub (chars "p-fluid")
      (updateCssClassesFile (chars ".p-fluid \x7b width: 100%; \x7d")).content = false
  ∧ (updateCssClassesFile (chars ".p-fluid \x7b width: 100%; \x7d")).changed = true := by
  decide

/-- C3 (counterexample): not every rule's substitution is idempotent —
the chips→autoComplete selector rewrite appends `[multiple]="true"`
(and its migration comments) to every `<p-autoComplete …>` opening tag
on every application, so a second application changes the file
again. -/
theorem chips_selector_rule_not_idempotent :
    chipsSelectorsContent (chipsSelectorsContent (chars "<p-chips>"))
      ≠ chipsSelectorsContent (chars "<p-chips>") := by decide

/-- C3 (amended): idempotence holds for the correctly scoped rules but
not for all: applying the calendar selector substitution a second time
to the rewritten scenario template produces no further change, and the
same holds for the CSS-class rule on a representative stylesheet; the
chips→autoComplete selector rule, however, is not idempotent. -/
theorem calendar_selector_and_css_idempotent_on_scenarios :
    calendarSelectorsContent (calendarSelectorsContent
        (chars "<p-calendar [(ngModel)]=\"date\"></p-calendar>"))
      = calendarSelectorsContent (chars "<p-calendar [(ngModel)]=\"date\"></p-calendar>")
  ∧ (updateCssClassesFile (updateCssClassesFile
        (chars ".p-highlight \x7b color: red; \x7d .p-fluid \x7b width: 100%; \x7d")).content).content
      = (updateCssClassesFile
        (chars ".p-highlight \x7b color: red; \x7d .p-fluid \x7b width: 100%; \x7d")).content := by
  decide

/-- C4 (counterexample): the calendar migration's module-import rule
uses the bare global regex `/CalendarModule/g` with no word boundary,
so an occurrence embedded in the longer identifier `MyCalendarModule`
is rewritten to `MyDatePickerModule` — not left unchanged. -/
theorem calendar_module_rename_hits_embedded_identifier :
    calendarModuleImportsContent (chars "const a: MyCalendarModule = x;")
      = chars "const a: MyDatePickerModule = x;" := by decide

/-- C4 (amended): word-boundary discipline holds for the `index.ts`
rules — the CSS-class rule (`\b…\b`) leaves identifiers that merely
contain `p-fluid` unchanged, the selector rule requires a leading `<`
and a tag end, and the directive rule leaves identifiers containing
`pDefer` unchanged — but the per-component module-import rules replace
`CalendarModule` without any boundary, rewriting embedded identifiers
such as `MyCalendarModule`. -/
theorem word_boundary_rules_keep_embedded_names :
    (updateCssClassesFile (chars "xp-fluid p-fluidity")).content
      = chars "xp-fluid p-fluidity"
  ∧ (updateComponentSelectorsFile (chars "my-p-calendar-box p-dropdown")).content
      = chars "my-p-calendar-box p-dropdown"
  ∧ (updateDirectivesFile (chars "xpDefer pDeferred")).content
      = chars "xpDefer pDeferred" := by decide

/-- C5: the selector rule of `updateComponentSelectors` rewrites
`<p-dropdown [style]="x"></p-dropdown>` to
`<p-select [style]="x"></p-select>`: the opening tag is renamed with
its attribute list kept verbatim and the closing tag is renamed too. -/
theorem dropdown_selector_scenario :
    (updateComponentSelectorsFile (chars "<p-dropdown [style]=\"x\"></p-dropdown>")).content
      = chars "<p-select [style]=\"x\"></p-select>" := by decide

/-- C7 (counterexample): a read failure is not reported — a walk of
`updateModuleImports` over a tree whose first `.ts` file is unreadable
emits no log entry at all for that file (the rule's only log lines are
per-update and per-warning lines of files that were read). -/
theorem read_failure_not_reported :
    (miRunLog unreadableTree).filter (fun e => e.1 == "/src/app/broken.ts") = [] := by
  decide

/-- C7 (amended): a file whose read returns no content is skipped
silently — no log entry names it — and processing of the remaining
files continues: the later matching file is still rewritten (and is
the only overwritten and the only logged file). -/
theorem read_failure_skipped_processing_continues :
    runFileRule (fun p => pathEndsWith p ".ts") (fun _ c => updateModuleImportsAcc c) unreadableTree
      = ([("/src/app/broken.ts", none),
          ("/src/app/app.module.ts",
            some (chars "import \x7b CalendarModule \x7d from 'primeng/datepicker';"))],
         ["/src/app/app.module.ts"])
  ∧ miRunLog unreadableTree
      = [("/src/app/app.module.ts",
          .updatedImport (chars "primeng/calendar") (chars "primeng/datepicker"))] := by
  decide

/-- C8 (counterexample): the rules of the `migrateToV18` chain do not
commute.  On a `.ts` file reading
`import {Message} from 'primeng/api'` + newline + `Message p-link= 1`,
running `updateModuleImports` before `updateCssClasses` rewrites the
trailing `Message` reference (its next non-space character is `p`), but
running `updateCssClasses` first deletes `p-link`, which puts an `=`
after the reference, and the Message rewrite's lookahead
`(?!\s*=|\s*\.|:)` then skips it: the two orders give different
files. -/
theorem module_imports_and_css_do_not_commute :
    (updateCssClassesFile (updateModuleImportsFile
        (chars "import \x7bMessage\x7d from 'primeng/api'\nMessage p-link= 1")).content).content
      ≠ (updateModuleImportsFile (updateCssClassesFile
        (chars "import \x7bMessage\x7d from 'primeng/api'\nMessage p-link= 1")).content).content := by
  decide

/-- C8 (amended): rule order is not interchangeable in general (the
Message rewrite of `updateModuleImports` reads the character after each
reference, which the `p-link` deletion of `updateCssClasses` can
change); pairs whose patterns do not interact do commute, as the
selector and CSS-class rules on the scenario template — the chain
therefore fixes one order (`index.ts:538`). -/
theorem selectors_and_css_commute_on_scenario :
    (updateCssClassesFile (updateComponentSelectorsFile
        (chars "<p-dropdown class=\"p-fluid\"></p-dropdown>")).content).content
      = (updateComponentSelectorsFile (updateCssClassesFile
        (chars "<p-dropdown class=\"p-fluid\"></p-dropdown>")).content).content := by
  decide

/-- C9: every path `analyzeFilesForMigration` returns ends in `.ts`,
`.html`, `.scss` or `.css`, belongs to a file whose content was
readable, and that content together with the path satisfies the
supplied predicate. -/
theorem analyzeFilesForMigration_sound (files : List MFile)
    (pred : String → Txt → Bool) (p : String)
    (h : p ∈ analyzeFilesForMigration files pred) :
    hasMigrationExt p = true ∧ ∃ c, (p, some c) ∈ files ∧ pred p c = true := by
  induction files with
  | nil => simp [analyzeFilesForMigration] at h
  | cons f rest ih =>
    obtain ⟨q, c?⟩ := f
    simp only [analyzeFilesForMigration] at h
    rw [List.mem_append] at h
    rcases h with h | h
    · by_cases he : hasMigrationExt q
      · cases c? with
        | some c =>
          by_cases hp : pred q c
          · simp only [he, hp, if_true, List.mem_singleton] at h
            subst h
            exact ⟨he, c, List.mem_cons_self _ _, hp⟩
          · simp [he, hp] at h
        | none => simp [he] at h
      · simp [he] at h
    · obtain ⟨hext, c, hmem, hpred⟩ := ih h
      exact ⟨hext, c, List.mem_cons_of_mem _ hmem, hpred⟩

/-- C9 (witness): on a concrete tree the returned path `/app/demo.html`
has a migration extension, its content is readable and satisfies the
predicate (here: mentions `p-calendar`). -/
theorem analyzeFilesForMigration_sound_witness :
    hasMigrationExt "/app/demo.html" = true
      ∧ ∃ c, ("/app/demo.html", some c)
            ∈ ([("/app/readme.md", some (chars "p-calendar")),
                ("/app/demo.html", some (chars "<p-calendar>"))] : List MFile)
          ∧ (fun (_ : String) (c : Txt) => containsSub (chars "p-calendar") c) "/app/demo.html" c = true :=
  analyzeFilesForMigration_sound
    [("/app/readme.md", some (chars "p-calendar")),
     ("/app/demo.html", some (chars "<p-calendar>"))]
    (fun _ c => containsSub (chars "p-calendar") c)
    "/app/demo.html" (by decide)

/-- C10 (counterexample): an entry that exists with the empty-string
version is falsy in JS, so `addPackageJsonDependency` overwrites it
even though the dependency already exists under the given type and
`overwrite` is false — `package.json` does not stay unchanged. -/
theorem addPackageJsonDependency_overwrites_empty_version :
    addPackageJsonDependency ⟨[("dependencies", [("primeng", "")])], []⟩
        ⟨.Default, "primeng", "^18.0.0", false⟩
      ≠ ⟨[("dependencies", [("primeng", "")])], []⟩ := by decide

/-- C10 (amended): if the named dependency exists under the given type
with a non-empty (JS-truthy) version and `overwrite` is false, the
function leaves `package.json` unchanged; in every other case it sets
exactly the one entry for that name under that type to the given
version, while every other dependency entry of every section and every
other top-level key keeps its value. -/
theorem addPackageJsonDependency_frame (pj : PackageJson) (d : PackageDependency) :
    (truthy (depLookup pj d.type.key d.name) = true ∧ d.overwrite = false →
      addPackageJsonDependency pj d = pj)
  ∧ (truthy (depLookup pj d.type.key d.name) = false ∨ d.overwrite = true →
      depLookup (addPackageJsonDependency pj d) d.type.key d.name = some d.version
      ∧ (∀ ty n : String, (ty = d.type.key → n ≠ d.name) →
          depLookup (addPackageJsonDependency pj d) ty n = depLookup pj ty n)
      ∧ (addPackageJsonDependency pj d).rest = pj.rest) := by
  constructor
  · rintro ⟨ht, ho⟩
    rw [depLookup_getD] at ht
    unfold addPackageJsonDependency
    simp [ht, ho]
  · intro hcase
    have hcond : (truthy (lookupA ((lookupA pj.sections d.type.key).getD []) d.name)
        && !d.overwrite) = false := by
      rw [← depLookup_getD]
      rcases hcase with h | h <;> simp [h]
    have hsec : (addPackageJsonDependency pj d).sections
        = setA pj.sections d.type.key (setA ((lookupA pj.sections d.type.key).getD []) d.name d.version) := by
      unfold addPackageJsonDependency
      simp [hcond]
    have hrest : (addPackageJsonDependency pj d).rest = pj.rest := by
      unfold addPackageJsonDependency
      simp [hcond]
    refine ⟨?_, ?_, hrest⟩
    · rw [depLookup_getD, hsec, lookupA_setA_self]
      simp only [Option.getD_some]
      exact lookupA_setA_self _ _ _
    · intro ty n hne
      by_cases hty : ty = d.type.key
      · subst hty
        have hnn : n ≠ d.name := hne rfl
        rw [depLookup_getD, hsec, lookupA_setA_self]
        simp only [Option.getD_some]
        rw [lookupA_setA_other _ _ _ _ hnn, depLookup_getD]
      · rw [depLookup_getD, hsec, lookupA_setA_other _ _ _ _ hty, ← depLookup_getD]

/-- C10 (witness): adding a dependency absent from an empty
`package.json` records exactly its version. -/
theorem addPackageJsonDependency_frame_witness :
    depLookup (addPackageJsonDependency ⟨[], []⟩ ⟨.Default, "primeng", "^18.0.0", true⟩)
        "dependencies" "primeng" = some "^18.0.0" :=
  ((addPackageJsonDependency_frame ⟨[], []⟩ ⟨.Default, "primeng", "^18.0.0", true⟩).2
    (Or.inr rfl)).1

/-- C6: running the full `migrateToV18` chain, from a clean worktree,
over a workspace that has no `/package.json`, no `/angular.json` and no
file matching any rule's pattern leaves every file byte-for-byte
unchanged, overwrites no path, and performs no version-control
commit. -/
theorem migrateToV18_no_match_no_commit (opts : MigrationOptions) (git : GitState)
    (ws : Workspace) (hgit : git.dirty = false)
    (hpkg : ws.packageJson = none) (hng : ws.angular = none)
    (h : ∀ f ∈ ws.files, chainFileNoMatch f = true) :
    (migrateToV18 opts git ws).ws = ws
      ∧ (migrateToV18 opts git ws).changedPaths = []
      ∧ (migrateToV18 opts git ws).commitPerformed = false := by
  have hsplit : ∀ f ∈ ws.files, ∀ p c, f = (p, some c) →
      (!pathEndsWith p ".ts" || !(updateModuleImportsAcc c).changed) = true
      ∧ (!(pathEndsWith p ".html" || pathEndsWith p ".ts")
          || !(updateComponentSelectorsFile c).changed) = true
      ∧ (!(pathEndsWith p ".html" || pathEndsWith p ".scss" || pathEndsWith p ".css"
            || pathEndsWith p ".ts") || !(updateCssClassesFile c).changed) = true
      ∧ (!pathEndsWith p ".html" || !(updateComponentPropertiesFile c).changed) = true
      ∧ (!(pathEndsWith p ".html" || pathEndsWith p ".ts")
          || !(updateDialogComponentFile p c).changed) = true
      ∧ (!pathEndsWith p ".html" || !(updateDirectivesFile c).changed) = true := by
    intro f hf p c hfc
    have hc := h f hf
    rw [hfc] at hc
    simp only [chainFileNoMatch, Bool.and_eq_true] at hc
    exact ⟨hc.1.1.1.1.1, hc.1.1.1.1.2, hc.1.1.1.2, hc.1.1.2, hc.1.2, hc.2⟩
  have hcond : ∀ i : Fin 6, ∀ f ∈ ws.files, (match f with
      | (_, none) => true
      | (p, some c) =>
        match i with
        | 0 => !pathEndsWith p ".ts" || !(updateModuleImportsAcc c).changed
        | 1 => !(pathEndsWith p ".html" || pathEndsWith p ".ts")
            || !(updateComponentSelectorsFile c).changed
        | 2 => !(pathEndsWith p ".html" || pathEndsWith p ".scss" || pathEndsWith p ".css"
              || pathEndsWith p ".ts") || !(updateCssClassesFile c).changed
        | 3 => !pathEndsWith p ".html" || !(updateComponentPropertiesFile c).changed
        | 4 => !(pathEndsWith p ".html" || pathEndsWith p ".ts")
            || !(updateDialogComponentFile p c).changed
        | 5 => !pathEndsWith p ".html" || !(updateDirectivesFile c).changed) = true := by
    intro i f hf
    obtain ⟨p, c?⟩ := f
    cases c? with
    | none => rfl
    | some c =>
      obtain ⟨g1, g2, g3, g4, g5, g6⟩ := hsplit (p, some c) hf p c rfl
      fin_cases i
      · exact g1
      · exact g2
      · exact g3
      · exact g4
      · exact g5
      · exact g6
  have hdep : updateDependenciesWs ws = (ws, []) := by
    unfold updateDependenciesWs
    rw [hpkg]
  have hang : ∀ w : Workspace, w.angular = none → updateAngularConfigWs w = (w, []) := by
    intro w hw
    unfold updateAngularConfigWs
    rw [hw]
  have hr2 : runFileRule (fun p => pathEndsWith p ".ts")
      (fun _ c => updateModuleImportsAcc c) ws.files = (ws.files, []) :=
    runFileRule_of_no_match _ _ _ (hcond 0)
  have hr3 : runFileRule (fun p => pathEndsWith p ".html" || pathEndsWith p ".ts")
      (fun _ c => updateComponentSelectorsFile c) ws.files = (ws.files, []) :=
    runFileRule_of_no_match _ _ _ (hcond 1)
  have hr4 : runFileRule
      (fun p => pathEndsWith p ".html" || pathEndsWith p ".scss" || pathEndsWith p ".css"
        || pathEndsWith p ".ts")
      (fun _ c => updateCssClassesFile c) ws.files = (ws.files, []) :=
    runFileRule_of_no_match _ _ _ (hcond 2)
  have hr5 : runFileRule (fun p => pathEndsWith p ".html")
      (fun _ c => updateComponentPropertiesFile c) ws.files = (ws.files, []) :=
    runFileRule_of_no_match _ _ _ (hcond 3)
  have hr6 : runFileRule (fun p => pathEndsWith p ".html" || pathEndsWith p ".ts")
      updateDialogComponentFile ws.files = (ws.files, []) :=
    runFileRule_of_no_match _ _ _ (hcond 4)
  have hr8 : runFileRule (fun p => pathEndsWith p ".html")
      (fun _ c => updateDirectivesFile c) ws.files = (ws.files, []) :=
    runFileRule_of_no_match _ _ _ (hcond 5)
  have hchain : chainRun ws = (ws, []) := by
    unfold chainRun
    simp only [hdep, hr2, hr3, hr4, hr5, hr6, hr8, hang _ hng, List.append_nil,
      List.nil_append]
  unfold migrateToV18
  simp [hgit, hchain]

/-- C6 (witness): a concrete clean run — one `.html` file no rule
matches, no `/package.json`, no `/angular.json` — comes back unchanged,
with no overwritten path and no commit. -/
theorem migrateToV18_no_match_no_commit_witness :
    (migrateToV18 ⟨false, false⟩ ⟨false, true⟩
        ⟨[("/src/app/readme.html", some (chars "hello"))], none, none⟩).ws
      = ⟨[("/src/app/readme.html", some (chars "hello"))], none, none⟩
  ∧ (migrateToV18 ⟨false, false⟩ ⟨false, true⟩
        ⟨[("/src/app/readme.html", some (chars "hello"))], none, none⟩).changedPaths = []
  ∧ (migrateToV18 ⟨false, false⟩ ⟨false, true⟩
        ⟨[("/src/app/readme.html", some (chars "hello"))], none, none⟩).commitPerformed = false :=
  migrateToV18_no_match_no_commit ⟨false, false⟩ ⟨false, true⟩
    ⟨[("/src/app/readme.html", some (chars "hello"))], none, none⟩
    rfl rfl rfl (by decide)

end PrimeNG18
